import Mathlib

/-!
Verification of the WebCorder recording/monitoring core against its
natural-language specification.  Each definition is a shallow embedding of
the correspondingly named Python function; environment effects (HTTP
probes, process spawning, file IO outcomes) are passed in as explicit
parameters describing the outcome the runtime would have produced.
-/

namespace Webcorder

/-! ## String helpers (Python `in`, `str.lower`, slicing) -/

/-- Python's substring test `needle in hay`, on character lists.
`"" in s` is `True` in Python, matched by `List.isPrefixOf [] _ = true`. -/
def containsSub (needle : List Char) : List Char → Bool
  | [] => needle.isEmpty
  | c :: t => needle.isPrefixOf (c :: t) || containsSub needle t

/-- Python's `needle in hay` on strings. -/
def strContains (hay needle : String) : Bool :=
  containsSub needle.data hay.data

/-- Python `str.lower` (structural version of `String.toLower`,
so results evaluate inside the kernel). -/
def lowerStr (s : String) : String :=
  ⟨s.data.map Char.toLower⟩

/-- Python `str.startswith`. -/
def startsWithStr (s pre : String) : Bool :=
  pre.data.isPrefixOf s.data

/-- Python `str.endswith`. -/
def endsWithStr (s suf : String) : Bool :=
  suf.data.isSuffixOf s.data

/-- Python `len` on a string. -/
def strLen (s : String) : Nat :=
  s.data.length

/-- Drop the last `n` characters of a string (Python `s[:-n]`). -/
def dropRight (s : String) (n : Nat) : String :=
  ⟨s.data.take (s.data.length - n)⟩

/-- Python `s.rstrip(chars)`: remove trailing characters belonging to `chars`. -/
def rstripSet (s : String) (chars : List Char) : String :=
  ⟨((s.data.reverse.dropWhile (fun c => chars.contains c)).reverse)⟩

/-- The ASCII whitespace characters stripped by Python `str.strip()`. -/
def pyIsSpace (c : Char) : Bool :=
  c = ' ' || c = '\t' || c = '\n' || c = '\x0d' || c = '\x0b' || c = '\x0c'

/-- Python `str.strip()` (whitespace at both ends). -/
def stripStr (s : String) : String :=
  ⟨((s.data.dropWhile pyIsSpace).reverse.dropWhile pyIsSpace).reverse⟩

/-- One fuel-indexed pass of Python `str.replace`: replaces non-overlapping
occurrences of `pat` (non-empty in every use here) left to right.  The
fuel is the length of the remaining text, enough for full traversal. -/
def replaceAux (pat repl : List Char) : Nat → List Char → List Char
  | 0, hay => hay
  | _ + 1, [] => []
  | fuel + 1, c :: t =>
    if pat ≠ [] && pat.isPrefixOf (c :: t) then
      repl ++ replaceAux pat repl fuel ((c :: t).drop pat.length)
    else
      c :: replaceAux pat repl fuel t

/-- Python `s.replace(pat, repl)`. -/
def replaceStr (s pat repl : String) : String :=
  ⟨replaceAux pat.data repl.data s.data.length s.data⟩

/-! ## `src/media/resolver.py` and `src/media/stream_extractor.py` -/

/-- Image-file extensions rejected by the stream-URL validator
(`image_extensions` in `_is_valid_stream_url` / `is_valid_stream_url`). -/
def image_extensions : List String :=
  [".jpg", ".jpeg", ".png", ".gif", ".webp", ".bmp"]

/-- Image-CDN substrings rejected by the stream-URL validator
(`image_domains`). -/
def image_domains : List String :=
  ["jpeg.live.", "jpg.live.", "png.live.", "img.", "image.", "thumb.", "preview."]

/-- Substrings accepted as streaming indicators (`streaming_indicators`). -/
def streaming_indicators : List String :=
  [".m3u8", ".mp4", ".flv", ".webm", ".mkv", "playlist", "master", "stream"]

/-- Embedding of `resolver._is_valid_stream_url` (identical in body to the
nested `is_valid_stream_url` of
`HybridStreamExtractor._clean_and_prioritize_urls`). -/
def is_valid_stream_url (url : String) : Bool :=
  let url_lower := lowerStr url
  if image_extensions.any (fun e => strContains url_lower e) then false
  else if image_domains.any (fun d => strContains url_lower d) then false
  else streaming_indicators.any (fun i => strContains url_lower i)

/-- Embedding of the nested `stream_priority` scoring function of
`HybridStreamExtractor._clean_and_prioritize_urls`. -/
def stream_priority (url : String) : Int :=
  if ¬ is_valid_stream_url url then -1000
  else
    (if strContains url ".m3u8" then 100 else 0)
    + (if strContains url "playlist" then 50 else 0)
    + (if strContains url "master" then 40 else 0)
    + (if strContains url "edge" then 30 else 0)
    + (if strContains url ".live." then 20 else 0)
    + (if startsWithStr url "https://" then 10 else 0)

/-- URL cleaning step of `_clean_and_prioritize_urls` (strip, rstrip of
quote characters, fix-ups of literal unicode escapes). -/
def cleanUrl (url : String) : String :=
  let c := rstripSet (stripStr url) ['"', ',', '\'']
  let c := if strContains c "\\u002D" then replaceStr c "\\u002D" "-" else c
  let c := if strContains c "\\u002d" then replaceStr c "\\u002d" "-" else c
  let c := if endsWithStr c "\\u0022" then dropRight c 6 else c
  let c := if endsWithStr c "\\\"" then dropRight c 2 else c
  let c := if endsWithStr c "\"" then dropRight c 1 else c
  let c := replaceStr c "\\u002F" "/"
  let c := replaceStr c "\\u003A" ":"
  replaceStr c "\\/" "/"

/-- The clean/validate/dedup loop of `_clean_and_prioritize_urls`:
`seen` accumulates already-emitted URLs (Python's `seen` set). -/
def cleanLoop (seen : List String) : List String → List String
  | [] => []
  | u :: rest =>
    let c := cleanUrl u
    if strLen c < 10 || ¬ startsWithStr c "http" then cleanLoop seen rest
    else if ¬ is_valid_stream_url c then cleanLoop seen rest
    else if seen.contains c then cleanLoop seen rest
    else c :: cleanLoop (c :: seen) rest

/-- Stable insertion placing `a` before the first element it does not
score below; models one step of Python's stable descending sort. -/
def insDesc (a : String) : List String → List String
  | [] => [a]
  | b :: t =>
    if stream_priority b ≤ stream_priority a then a :: b :: t
    else b :: insDesc a t

/-- Python `sorted(urls, key=stream_priority, reverse=True)`: a stable sort
by descending priority (ties keep input order). -/
def sortByPriorityDesc : List String → List String
  | [] => []
  | a :: t => insDesc a (sortByPriorityDesc t)

/-- Embedding of `HybridStreamExtractor._clean_and_prioritize_urls`. -/
def clean_and_prioritize_urls (urls : List String) : List String :=
  (sortByPriorityDesc (cleanLoop [] urls)).filter (fun u => 0 < stream_priority u)

/-- Embedding of `resolver.resolve_page_url`, returning only the resolved
URL.  `extracted` is the outcome of `extractor.extract_stream_url`
(`none` on extraction failure or exception).  Title/protocol metadata do
not affect which URL is returned and are omitted. -/
def resolve_page_url (page_url : String) (extracted : Option String) : Option String :=
  match extracted with
  | none => none
  | some su =>
    if su ≠ "" ∧ su ≠ page_url then
      if ¬ is_valid_stream_url su then none else some su
    else none

/-! ## `src/models.py` — the Session dataclass

Process handles are opaque; a handle is identified by a numeric id, and
runtime facts about the process (poll outcome, stdin write success) are
explicit parameters of the operations that consult them. -/

structure Session where
  page_url : String
  resolved_url : Option String := none
  rec_proc : Option Nat := none
  elapsed_seconds : Nat := 0
  elapsed_running : Bool := false
  status : String := "Idle"
deriving DecidableEq, Repr

/-- The invariant of spec §3: `process_handle` non-null ⟺ status Recording. -/
def sessionInv (s : Session) : Prop :=
  s.rec_proc.isSome = true ↔ s.status = "Recording"

instance (s : Session) : Decidable (sessionInv s) := by
  unfold sessionInv; infer_instance

/-! ## `src/recording.py` -/

/-- Which signal `stop_record` delivered to the capture process. -/
inductive StopSignal where
  | noSignal
  | graceful
  | terminated
deriving DecidableEq, Repr

/-- Embedding of `recording.stop_record` restricted to the selected
session's state (the function returns early when there is no selection or
no session; both leave every session untouched).  `stdinPresent` says
whether the process object has a stdin pipe, `writeOk` whether writing
`b"q\n"` to it raised.  The body never clears `rec_proc` and never writes
`status`; it only stops elapsed tracking and removes the session from the
stream monitor (monitor membership is modelled separately). -/
def stop_record (s : Session) (stdinPresent writeOk : Bool) :
    Session × StopSignal :=
  match s.rec_proc with
  | none => (s, .noSignal)
  | some _ =>
    let sig : StopSignal :=
      if stdinPresent then (if writeOk then .graceful else .terminated)
      else .noSignal
    ({ s with elapsed_running := false }, sig)

/-- `start_session_timer` plus the assignments around a successful spawn in
`recording.start_record`: store the handle, set status Recording, reset
and start the elapsed counter. -/
def toRecording (s : Session) (p : Nat) : Session :=
  { s with rec_proc := some p, status := "Recording",
           elapsed_seconds := 0, elapsed_running := true }

/-- Outcome of the cached-URL spawn attempt in `start_record`:
the spawn returned a process with a pid, returned one without a pid, or
raised. -/
inductive CachedOutcome where
  | spawnOk (p : Nat)
  | spawnNoPid
  | spawnErr
deriving DecidableEq, Repr

/-- Outcome of the resolve-then-spawn phase of `start_record`:
`app._resolve` returned a falsy value, or it returned `url` and the
subsequent `spawn_record_process` call succeeded or raised. -/
inductive ResolveOutcome where
  | fail
  | okSpawnOk (url : String) (p : Nat)
  | okSpawnErr (url : String)
deriving DecidableEq, Repr

/-- The resolve-and-record phase of `recording.start_record.work`
(everything after the cached-URL attempt). -/
def resolvePhase (s : Session) (r : ResolveOutcome) : Session :=
  match r with
  | .fail => s
  | .okSpawnOk url p => toRecording { s with resolved_url := some url, status := "Live" } p
  | .okSpawnErr url => { s with resolved_url := some url, status := "Live" }

/-- Embedding of `recording.start_record.work`'s effect on the session:
if a (truthy) cached `resolved_url` exists, try to record with it; when
that spawn yields no usable process, fall through to re-resolving. -/
def start_record (s : Session) (c : CachedOutcome) (r : ResolveOutcome) : Session :=
  match s.resolved_url with
  | some u =>
    if u = "" then resolvePhase s r
    else
      match c with
      | .spawnOk p => toRecording s p
      | .spawnNoPid => resolvePhase s r
      | .spawnErr => resolvePhase s r
  | none => resolvePhase s r

/-- Embedding of the `poll` closure of `recording.wait_record_end_session`
once the process has a handle: `ret` is `rec_proc.poll()` (`none` while the
process still runs).  On exit it clears the handle, stops the timer and
sets status Idle. -/
def wait_record_end_poll (s : Session) (ret : Option Int) : Session :=
  match s.rec_proc with
  | none => s
  | some _ =>
    match ret with
    | none => s
    | some _ => { s with elapsed_running := false, rec_proc := none, status := "Idle" }

/-! ## `src/autorecord/stream_monitor.py` — restart path -/

/-- Embedding of the synchronous part of
`StreamMonitor._restart_in_ui_thread` (everything before the 5-second
delayed `start_record` callback): when a handle is present it signals and
terminates the process, clears `rec_proc` and stops the timer — but never
touches `status`. -/
def restart_in_ui_thread (s : Session) : Session :=
  match s.rec_proc with
  | none => s
  | some _ => { s with rec_proc := none, elapsed_running := false }

/-! ## `src/autorecord/stream_monitor.py` — liveness check -/

/-- Embedding of `StreamMonitor._check_stream_alive`.
`sessExists`: the session id is still in `app.sessions`;
`requestsOk`: `import requests` succeeded;
`hasNetloc`: `urlparse(resolved_url).netloc` is non-empty;
`probe`: the HEAD request's status code, `none` when the request (or
anything else inside the outer `try`) raised, including timeouts. -/
def check_stream_alive (sessExists : Bool) (resolvedUrl : Option String)
    (requestsOk hasNetloc : Bool) (probe : Option Nat) : Bool :=
  if ¬ sessExists then true
  else
    match resolvedUrl with
    | none => true
    | some u =>
      if u = "" then true
      else if ¬ requestsOk then true
      else if ¬ hasNetloc then true
      else
        match probe with
        | none => true
        | some code => code < 400

/-- What `StreamMonitor._monitor_loop` does with one monitored session. -/
inductive MonitorAction where
  | dropFromSet
  | restart
  | keep
deriving DecidableEq, Repr

/-- The per-session body of `StreamMonitor._monitor_loop`: inactive
recordings are removed from the monitored set; an active recording whose
stream check fails is restarted; otherwise nothing happens. -/
def monitor_session_step (recordingActive alive : Bool) : MonitorAction :=
  if ¬ recordingActive then .dropFromSet
  else if ¬ alive then .restart
  else .keep

/-! ## `src/autorecord/autorecord.py` -/

/-- Association-list update with Python-dict semantics
(`d[k] = v`; keys stay unique when they were unique). -/
def setEntry : List (String × Nat) → String → Nat → List (String × Nat)
  | [], k, v => [(k, v)]
  | (k', v') :: t, k, v =>
    if k' = k then (k, v) :: t else (k', v') :: setEntry t k v

/-- Association-list deletion (`del d[k]`, first occurrence). -/
def removeEntry : List (String × Nat) → String → List (String × Nat)
  | [], _ => []
  | (k', v') :: t, k =>
    if k' = k then t else (k', v') :: removeEntry t k

/-- The `AutoRecordManager` state touched by `_check_single_session`:
the monitored set and the `_failed_sessions` counter dict. -/
structure AutoRecordState where
  monitored : List String
  failed : List (String × Nat)
deriving DecidableEq, Repr

/-- Outcome of `check_session_status(sess.page_url)`: `none` when it
raised, otherwise the `(resolved_url, status)` pair it returned (with
`resolved_url` itself optional). -/
def CheckOutcome := Option (Option String × String)

/-- Embedding of `AutoRecordManager._check_single_session` for session
`sid`.  `retryCount` is `config.retry_count` (default 3); `sessExists`
whether `sid` is still in `app.sessions`; `isRecording` the result of
`_is_session_recording`. UI updates and the deferred recording start do
not change this state and are omitted. -/
def check_single_session (retryCount : Nat) (st : AutoRecordState)
    (sid : String) (sessExists isRecording : Bool)
    (outcome : CheckOutcome) : AutoRecordState :=
  if ¬ sessExists then
    { st with monitored := st.monitored.erase sid }
  else if isRecording then st
  else if (match st.failed.lookup sid with
           | some n => decide (retryCount ≤ n)
           | none => false) = true then
    -- reached the retry limit: reset the counter, keep the session
    { st with failed := setEntry st.failed sid 0 }
  else
    match outcome with
    | none =>
      { st with failed := setEntry st.failed sid ((st.failed.lookup sid).getD 0 + 1) }
    | some (resolved, status) =>
      if status = "Live" ∧ resolved ≠ none ∧ resolved ≠ some "" then
        { st with failed := removeEntry st.failed sid }
      else
        { st with failed := setEntry st.failed sid ((st.failed.lookup sid).getD 0 + 1) }

/-! ## `src/storage.py` -/

/-- One value of the per-URL `models` map
(`{"url": ..., "autorecord": ..., "created_at": ...}`). -/
structure ModelEntry where
  url : String
  autorecord : Bool
  created_at : Option String
deriving DecidableEq, Repr

/-- The persisted unified JSON document as `_load_unified_data` reads it:
the three keys it inspects, each `none` when the key is absent.  `models`
is an insertion-ordered map (Python dict); `settings` is an opaque
key/value object whose content the loader never inspects. -/
structure UnifiedDoc where
  urls : Option (List String)
  models : Option (List (String × ModelEntry))
  settings : Option (List (String × String))
deriving DecidableEq, Repr

/-- The migration body: each legacy URL becomes a map entry with
`autorecord = False` and `created_at = None`. -/
def migrateUrls (l : List String) : List (String × ModelEntry) :=
  l.map (fun u => (u, { url := u, autorecord := false, created_at := none }))

/-- Embedding of `storage._load_unified_data` on an already-parsed
document; the input is `none` when the file does not exist, fails to read
or fails to parse (all of which yield the empty default document).  The
intermediate `_save_unified_data` call writes the same document back and
does not change the returned value. -/
def load_unified_data (doc : Option UnifiedDoc) : UnifiedDoc :=
  match doc with
  | none => { urls := none, models := some [], settings := some [] }
  | some d =>
    -- migrate old format: 'urls' present and truthy, 'models' absent or falsy
    let d :=
      if d.urls.isSome ∧ d.urls ≠ some [] ∧ (d.models = none ∨ d.models = some []) then
        { d with models := some (migrateUrls (d.urls.getD [])), urls := none }
      else d
    -- ensure 'models' exists
    let d := if d.models = none then { d with models := some [] } else d
    -- ensure 'settings' exists
    let d := if d.settings = none then { d with settings := some [] } else d
    -- remove 'urls' if it still exists
    if d.urls.isSome then { d with urls := none } else d

/-! ## `src/updater/token_manager.py` -/

/-- Fallback to the embedded production token
(method 3 of `load_github_token`); `prod` is `none` on `ImportError`. -/
def token_from_production (prod : Option String) : Option String :=
  match prod with
  | none => none
  | some p => if p ≠ "" ∧ stripStr p ≠ "" then some (stripStr p) else none

/-- Method 2 of `load_github_token`: the local config file.  `file` is
`none` when the file is missing or reading/parsing raised; otherwise it
carries `config.get('github_token', '')`. -/
def token_from_file (file : Option String) (prod : Option String) : Option String :=
  match file with
  | none => token_from_production prod
  | some raw =>
    let tok := stripStr raw
    if tok ≠ "" then some tok else token_from_production prod

/-- Embedding of `token_manager.load_github_token`.  `env` is
`os.environ.get('GITHUB_TOKEN')` (`none` when unset); a truthy (non-empty)
value is returned stripped without consulting the later sources. -/
def load_github_token (env file prod : Option String) : Option String :=
  match env with
  | some t => if t ≠ "" then some (stripStr t) else token_from_file file prod
  | none => token_from_file file prod

/-! ## `src/media/ffmpeg.py` — `spawn_record_process` command line

The audio volume is modelled as an exact rational; the source compares
`abs(audio_volume - 1.0) > 1e-3` on floats, embedded as `|v - 1| > 1/1000`.
-/

/-- The `"\r\n".join(f"{k}: {v}" ...)` header rendering. -/
def renderHeaders (hs : List (String × String)) : String :=
  String.intercalate "\r\n" (hs.map (fun kv => kv.1 ++ ": " ++ kv.2))

/-- `urlparse(stream_url).scheme.lower() if "://" in stream_url else ""`. -/
def urlScheme (u : String) : String :=
  if strContains u "://" then lowerStr ((u.splitOn "://").headD "") else ""

/-- The re-encode test `audio_volume is not None and abs(audio_volume - 1.0) > 1e-3`. -/
def volumeDiffers (v : Option ℚ) : Bool :=
  match v with
  | none => false
  | some x => decide (1/1000 < |x - 1|)

/-- The `-af volume=...` pair added when the volume differs from 1;
the value is clamped below at 0 (`max(0.0, float(audio_volume))`). -/
def volumeFilterArgs (v : Option ℚ) : List String :=
  if volumeDiffers v then ["-af", "volume=" ++ toString (max 0 ((v.getD 1)))]
  else []

/-- The audio codec arguments: re-encode to aac when the volume differs,
stream-copy otherwise. -/
def audioCodecArgs (v : Option ℚ) : List String :=
  if volumeDiffers v then ["-c:a", "aac", "-b:a", "192k"]
  else ["-c:a", "copy"]

/-- The reconnect/headers input arguments for http(s) sources. -/
def inputArgs (stream_url : String) (hs : List (String × String)) : List String :=
  if urlScheme stream_url = "http" ∨ urlScheme stream_url = "https" then
    ["-reconnect", "1", "-reconnect_streamed", "1", "-reconnect_at_eof", "1",
     "-reconnect_delay_max", "30", "-rw_timeout", toString (60 * 1000000)]
    ++ (if hs ≠ [] then ["-headers", renderHeaders hs] else [])
  else []

/-- Embedding of the command line built by `ffmpeg.spawn_record_process`
(the `cmd` list passed to `subprocess.Popen`). -/
def spawn_record_cmd (stream_url output_path : String) (duration : Option String)
    (extra : List String) (audio_volume : Option ℚ)
    (input_headers : List (String × String)) : List String :=
  ["ffmpeg", "-hide_banner", "-nostats", "-loglevel", "error",
   "-fflags", "+genpts", "-avoid_negative_ts", "make_zero", "-async", "1", "-y"]
  ++ inputArgs stream_url input_headers
  ++ ["-i", stream_url]
  ++ (if strContains stream_url ".m3u8" then
        ["-analyzeduration", "10M", "-probesize", "10M", "-max_reload", "1000",
         "-hls_time", "10", "-hls_list_size", "0"]
      else [])
  ++ (match duration with
      | some d => if d ≠ "" then ["-t", d] else []
      | none => [])
  ++ extra
  ++ volumeFilterArgs audio_volume
  ++ ["-map", "0:v:0", "-map", "0:a:0?", "-c:v", "copy", "-copyts"]
  ++ audioCodecArgs audio_volume
  ++ (if endsWithStr (lowerStr output_path) ".mp4" then
        ["-tag:v", "avc1", "-tag:a", "mp4a", "-bsf:a", "aac_adtstoasc",
         "-movflags", "+faststart+frag_keyframe+empty_moov+default_base_moof",
         "-frag_duration", "1000000", "-min_frag_duration", "1000000"]
      else ["-tag:v", "0", "-tag:a", "0"])
  ++ [output_path]

/-! ## Helper notions for the statements -/

/-- The claim's premise for C4: the URL contains (case-insensitively) an
image-file extension or a known image-CDN substring. -/
def hasImageMarker (url : String) : Bool :=
  (image_extensions ++ image_domains).any (fun t => strContains (lowerStr url) t)

/-- `sub` occurs contiguously inside `l`. -/
def containsSeq (sub l : List String) : Prop :=
  ∃ pre post, l = pre ++ sub ++ post

lemma containsSeq_self (s : List String) : containsSeq s s :=
  ⟨[], [], by simp⟩

lemma containsSeq_append_left {s l : List String} (x : List String)
    (h : containsSeq s l) : containsSeq s (x ++ l) := by
  obtain ⟨p, q, rfl⟩ := h
  exact ⟨x ++ p, q, by simp⟩

lemma containsSeq_append_right {s l : List String} (x : List String)
    (h : containsSeq s l) : containsSeq s (l ++ x) := by
  obtain ⟨p, q, rfl⟩ := h
  exact ⟨p, q ++ x, by simp⟩

/-- A URL with an image marker fails the stream validator. -/
lemma is_valid_false_of_marker {url : String} (h : hasImageMarker url = true) :
    is_valid_stream_url url = false := by
  unfold hasImageMarker at h
  unfold is_valid_stream_url
  rw [List.any_append, Bool.or_eq_true] at h
  rcases h with h | h
  · simp [h]
  · by_cases hx : image_extensions.any (fun t => strContains (lowerStr url) t) = true
    · simp [hx]
    · simp only [hx]
      simp [h]

/-- Every URL emitted by `_clean_and_prioritize_urls` passes the
validator (its priority is positive, and invalid URLs score `-1000`). -/
lemma valid_of_mem_clean {u : String} {urls : List String}
    (h : u ∈ clean_and_prioritize_urls urls) : is_valid_stream_url u = true := by
  unfold clean_and_prioritize_urls at h
  have hp := (List.mem_filter.mp h).2
  by_contra hv
  rw [Bool.not_eq_true] at hv
  unfold stream_priority at hp
  rw [hv] at hp
  simp at hp

/-- Claim C4: a candidate URL that contains an image-file extension
(.jpg, .jpeg, .png, .gif, .webp, .bmp) or a known image-CDN substring
(jpeg.live., jpg.live., png.live., img., image., thumb., preview.) is
never returned by `resolve_page_url` and never appears in the output of
`_clean_and_prioritize_urls`. -/
theorem resolver_rejects_image_urls (url : String)
    (h : hasImageMarker url = true) :
    (∀ page extracted, resolve_page_url page extracted ≠ some url) ∧
    (∀ urls, url ∉ clean_and_prioritize_urls urls) := by
  have hv := is_valid_false_of_marker h
  constructor
  · intro page extracted hres
    unfold resolve_page_url at hres
    match extracted with
    | none => exact Option.noConfusion hres
    | some su =>
      simp only at hres
      split at hres
      · split at hres
        · exact Option.noConfusion hres
        · rename_i hvalid
          rw [Option.some.injEq] at hres
          subst hres
          rw [hv] at hvalid
          simp at hvalid
      · exact Option.noConfusion hres
  · intro urls hmem
    have := valid_of_mem_clean hmem
    rw [hv] at this
    exact Bool.noConfusion this

/-- Witness for C4 at the concrete URL `http://x/b.jpg`. -/
theorem resolver_rejects_image_urls_witness :
    hasImageMarker "http://x/b.jpg" = true ∧
    resolve_page_url "p" (some "http://x/b.jpg") ≠ some "http://x/b.jpg" ∧
    "http://x/b.jpg" ∉ clean_and_prioritize_urls ["http://x/b.jpg"] := by
  refine ⟨by decide, ?_, ?_⟩
  · exact (resolver_rejects_image_urls "http://x/b.jpg" (by decide)).1 "p" (some "http://x/b.jpg")
  · exact (resolver_rejects_image_urls "http://x/b.jpg" (by decide)).2 ["http://x/b.jpg"]

/-- Claim C5: on the candidate list
`["http://x/a.m3u8", "http://x/master.m3u8", "http://x/b.jpg"]` the
cleaning-and-ranking function ranks the master playlist first, drops the
`.jpg` entry, and breaks priority ties by input order (demonstrated on two
equal-score candidates given in both orders). -/
theorem clean_and_prioritize_concrete :
    clean_and_prioritize_urls
        ["http://x/a.m3u8", "http://x/master.m3u8", "http://x/b.jpg"]
      = ["http://x/master.m3u8", "http://x/a.m3u8"] ∧
    (clean_and_prioritize_urls
        ["http://x/a.m3u8", "http://x/master.m3u8", "http://x/b.jpg"]).head?
      = some "http://x/master.m3u8" ∧
    "http://x/b.jpg" ∉ clean_and_prioritize_urls
        ["http://x/a.m3u8", "http://x/master.m3u8", "http://x/b.jpg"] ∧
    stream_priority "http://x/a.m3u8" = stream_priority "http://x/c.m3u8" ∧
    clean_and_prioritize_urls ["http://x/a.m3u8", "http://x/c.m3u8"]
      = ["http://x/a.m3u8", "http://x/c.m3u8"] ∧
    clean_and_prioritize_urls ["http://x/c.m3u8", "http://x/a.m3u8"]
      = ["http://x/c.m3u8", "http://x/a.m3u8"] := by
  decide

/-- Claim C7: `stop_record` on a session with no live process handle is a
no-op: it returns the session unchanged and sends no signal (the embedding
is a total function, so no exception is possible). -/
theorem stop_record_idempotent_when_not_recording
    (s : Session) (stdinPresent writeOk : Bool) (h : s.rec_proc = none) :
    stop_record s stdinPresent writeOk = (s, .noSignal) := by
  unfold stop_record
  rw [h]

/-- Witness for C7 on a concrete idle session. -/
theorem stop_record_idempotent_when_not_recording_witness :
    stop_record { page_url := "http://x", status := "Idle" } true true
      = ({ page_url := "http://x", status := "Idle" }, .noSignal) :=
  stop_record_idempotent_when_not_recording
    { page_url := "http://x", status := "Idle" } true true rfl

/-- Claim C8: `_check_stream_alive` answers "alive" whenever the probe
raised or timed out (`probe = none`), whenever there is no resolved URL or
it has no network location, and whenever the HTTP library is unavailable;
the monitor loop triggers a restart only on a confirmed-dead probe
(a response with status ≥ 400, with every precondition for probing met). -/
theorem check_stream_alive_defaults
    (sessExists : Bool) (resolvedUrl : Option String)
    (requestsOk hasNetloc : Bool) (probe : Option Nat) :
    (probe = none →
      check_stream_alive sessExists resolvedUrl requestsOk hasNetloc none = true) ∧
    (check_stream_alive sessExists none requestsOk hasNetloc probe = true) ∧
    (check_stream_alive sessExists (some "") requestsOk hasNetloc probe = true) ∧
    (hasNetloc = false →
      check_stream_alive sessExists resolvedUrl requestsOk false probe = true) ∧
    (requestsOk = false →
      check_stream_alive sessExists resolvedUrl false hasNetloc probe = true) ∧
    (monitor_session_step true
        (check_stream_alive sessExists resolvedUrl requestsOk hasNetloc probe)
      = .restart →
      sessExists = true ∧ requestsOk = true ∧ hasNetloc = true ∧
      (∃ u, resolvedUrl = some u ∧ u ≠ "") ∧
      (∃ code, probe = some code ∧ 400 ≤ code)) := by
  refine ⟨?_, ?_, ?_, ?_, ?_, ?_⟩
  · intro _
    unfold check_stream_alive
    rcases sessExists with _ | _ <;> rcases resolvedUrl with _ | u <;> simp
  · unfold check_stream_alive
    rcases sessExists with _ | _ <;> simp
  · unfold check_stream_alive
    rcases sessExists with _ | _ <;> simp
  · intro h; subst h
    unfold check_stream_alive
    rcases sessExists with _ | _ <;> rcases resolvedUrl with _ | u <;> simp
  · intro h; subst h
    unfold check_stream_alive
    rcases sessExists with _ | _ <;> rcases resolvedUrl with _ | u <;> simp
  · intro h
    have halive : check_stream_alive sessExists resolvedUrl requestsOk hasNetloc probe = false := by
      by_contra hb
      rw [Bool.not_eq_false] at hb
      unfold monitor_session_step at h
      rw [hb] at h
      simp at h
    rcases sessExists with _ | _
    · simp [check_stream_alive] at halive
    · rcases resolvedUrl with _ | u
      · simp [check_stream_alive] at halive
      · by_cases hu : u = ""
        · simp [check_stream_alive, hu] at halive
        · rcases requestsOk with _ | _
          · simp [check_stream_alive, hu] at halive
          · rcases hasNetloc with _ | _
            · simp [check_stream_alive, hu] at halive
            · rcases probe with _ | code
              · simp [check_stream_alive, hu] at halive
              · refine ⟨rfl, rfl, rfl, ⟨u, rfl, hu⟩, ⟨code, rfl, ?_⟩⟩
                simp [check_stream_alive, hu] at halive
                exact halive

/-- Witness for C8: all hypotheses discharged at concrete inputs. -/
theorem check_stream_alive_defaults_witness :
    check_stream_alive true (some "http://x/a.m3u8") true true none = true ∧
    monitor_session_step true (check_stream_alive true (some "http://x/a.m3u8") true true (some 404))
      = .restart ∧
    (∃ code, (some 404 : Option Nat) = some code ∧ 400 ≤ code) := by
  refine ⟨(check_stream_alive_defaults true (some "http://x/a.m3u8") true true none).1 rfl,
    by decide, ?_⟩
  exact ((check_stream_alive_defaults true (some "http://x/a.m3u8") true true (some 404)).2.2.2.2.2
    (by decide)).2.2.2.2

/-- Claim C9: the release-hosting credential is resolved in priority order
environment variable → local config file → embedded fallback, first
non-empty match winning: a non-empty environment value is returned
(stripped) without consulting later sources; an empty or missing one falls
through to the file, whose non-blank token wins, else to the embedded
token; `none` comes back exactly when every source is empty or missing
(for the file and embedded sources, blank after stripping). -/
theorem load_github_token_priority (env file prod : Option String) :
    (∀ t, env = some t → t ≠ "" →
      load_github_token env file prod = some (stripStr t)) ∧
    ((env = none ∨ env = some "") →
      load_github_token env file prod = token_from_file file prod) ∧
    (∀ raw, file = some raw → stripStr raw ≠ "" →
      token_from_file file prod = some (stripStr raw)) ∧
    ((file = none ∨ ∃ raw, file = some raw ∧ stripStr raw = "") →
      token_from_file file prod = token_from_production prod) ∧
    (load_github_token env file prod = none ↔
      (env = none ∨ env = some "") ∧
      (file = none ∨ ∃ raw, file = some raw ∧ stripStr raw = "") ∧
      (prod = none ∨ ∃ q, prod = some q ∧ stripStr q = "")) := by
  refine ⟨?_, ?_, ?_, ?_, ?_⟩
  · intro t ht hne
    subst ht
    simp [load_github_token, hne]
  · intro h
    rcases h with h | h <;> subst h <;> simp [load_github_token]
  · intro raw hf hne
    subst hf
    simp [token_from_file, hne]
  · intro h
    rcases h with h | ⟨raw, hf, hb⟩
    · subst h; rfl
    · subst hf; simp [token_from_file, hb]
  · constructor
    · intro h
      rcases env with _ | t
      · rcases file with _ | raw
        · rcases prod with _ | q
          · exact ⟨Or.inl rfl, Or.inl rfl, Or.inl rfl⟩
          · refine ⟨Or.inl rfl, Or.inl rfl, Or.inr ⟨q, rfl, ?_⟩⟩
            simp [load_github_token, token_from_file, token_from_production] at h
            by_cases hq : q = ""
            · subst hq; rfl
            · by_cases hs : stripStr q = ""
              · exact hs
              · simp [hq, hs] at h
        · by_cases hraw : stripStr raw = ""
          · rcases prod with _ | q
            · exact ⟨Or.inl rfl, Or.inr ⟨raw, rfl, hraw⟩, Or.inl rfl⟩
            · refine ⟨Or.inl rfl, Or.inr ⟨raw, rfl, hraw⟩, Or.inr ⟨q, rfl, ?_⟩⟩
              simp [load_github_token, token_from_file, token_from_production, hraw] at h
              by_cases hq : q = ""
              · subst hq; rfl
              · by_cases hs : stripStr q = ""
                · exact hs
                · simp [hq, hs] at h
          · simp [load_github_token, token_from_file, hraw] at h
      · by_cases ht : t = ""
        · subst ht
          have h' : token_from_file file prod = none := by
            simpa [load_github_token] using h
          rcases file with _ | raw
          · rcases prod with _ | q
            · exact ⟨Or.inr rfl, Or.inl rfl, Or.inl rfl⟩
            · refine ⟨Or.inr rfl, Or.inl rfl, Or.inr ⟨q, rfl, ?_⟩⟩
              simp [token_from_file, token_from_production] at h'
              by_cases hq : q = ""
              · subst hq; rfl
              · by_cases hs : stripStr q = ""
                · exact hs
                · simp [hq, hs] at h'
          · by_cases hraw : stripStr raw = ""
            · rcases prod with _ | q
              · exact ⟨Or.inr rfl, Or.inr ⟨raw, rfl, hraw⟩, Or.inl rfl⟩
              · refine ⟨Or.inr rfl, Or.inr ⟨raw, rfl, hraw⟩, Or.inr ⟨q, rfl, ?_⟩⟩
                simp [token_from_file, token_from_production, hraw] at h'
                by_cases hq : q = ""
                · subst hq; rfl
                · by_cases hs : stripStr q = ""
                  · exact hs
                  · simp [hq, hs] at h'
            · simp [token_from_file, hraw] at h'
        · simp [load_github_token, ht] at h
    · rintro ⟨he, hf, hp⟩
      have hprod : token_from_production prod = none := by
        rcases hp with hp | ⟨q, hq, hs⟩
        · subst hp; rfl
        · subst hq; simp [token_from_production, hs]
      have hfile : token_from_file file prod = none := by
        rcases hf with hf | ⟨raw, hraw, hs⟩
        · subst hf; exact hprod
        · subst hraw; simp [token_from_file, hs, hprod]
      rcases he with he | he <;> subst he <;>
        simp [load_github_token, hfile]

/-- Witness for C9: environment wins when set; with everything blank the
result is `none`. -/
theorem load_github_token_priority_witness :
    load_github_token (some " tok ") (some "filetok") (some "p") = some "tok" ∧
    load_github_token none (some "  ") none = none := by
  constructor
  · have h := (load_github_token_priority (some " tok ") (some "filetok") (some "p")).1
      " tok " rfl (by decide)
    rw [h]
    decide
  · exact (load_github_token_priority none (some "  ") none).2.2.2.2.mpr
      ⟨Or.inl rfl, Or.inr ⟨"  ", rfl, by decide⟩, Or.inl rfl⟩

/-- Looking up any migrated URL yields its defaulted entry. -/
lemma lookup_migrateUrls {u : String} {l : List String} (h : u ∈ l) :
    (migrateUrls l).lookup u
      = some { url := u, autorecord := false, created_at := none } := by
  induction l with
  | nil => cases h
  | cons x t ih =>
    rcases List.mem_cons.mp h with h | h
    · subst h
      simp [migrateUrls, List.lookup]
    · by_cases hx : u = x
      · subst hx
        simp [migrateUrls, List.lookup]
      · have hbeq : (u == x) = false := by
          simp [beq_iff_eq, hx]
        simp only [migrateUrls, List.map, List.lookup, hbeq]
        exact ih h

/-- Claim C6: loading a persisted document that has only a legacy `urls`
list (no `models` map) produces the map-format document in which every
URL maps to an `autorecord = false` entry and the legacy key is gone, and
loading the migrated document again returns it unchanged. -/
theorem legacy_migration (l : List String) (settings : Option (List (String × String))) :
    (load_unified_data (some ⟨some l, none, settings⟩)).models = some (migrateUrls l) ∧
    (load_unified_data (some ⟨some l, none, settings⟩)).urls = none ∧
    (∀ u, u ∈ l →
      ((load_unified_data (some ⟨some l, none, settings⟩)).models.getD []).lookup u
        = some { url := u, autorecord := false, created_at := none }) ∧
    load_unified_data (some (load_unified_data (some ⟨some l, none, settings⟩)))
      = load_unified_data (some ⟨some l, none, settings⟩) := by
  have hout : load_unified_data (some ⟨some l, none, settings⟩)
      = ⟨none, some (migrateUrls l),
         if settings = none then some [] else settings⟩ := by
    rcases l with _ | ⟨x, t⟩
    · rcases settings with _ | s <;> simp [load_unified_data, migrateUrls]
    · rcases settings with _ | s <;> simp [load_unified_data]
  refine ⟨by rw [hout], by rw [hout], ?_, ?_⟩
  · intro u hu
    rw [hout]
    simpa using lookup_migrateUrls hu
  · rw [hout]
    rcases settings with _ | s <;> simp [load_unified_data]

/-- Witness for C6 at a two-URL legacy document. -/
theorem legacy_migration_witness :
    (load_unified_data (some ⟨some ["http://a", "http://b"], none, none⟩)).models
      = some (migrateUrls ["http://a", "http://b"]) ∧
    ((load_unified_data (some ⟨some ["http://a", "http://b"], none, none⟩)).models.getD []).lookup "http://b"
      = some { url := "http://b", autorecord := false, created_at := none } ∧
    load_unified_data (some (load_unified_data (some ⟨some ["http://a", "http://b"], none, none⟩)))
      = load_unified_data (some ⟨some ["http://a", "http://b"], none, none⟩) := by
  obtain ⟨h1, h2, h3, h4⟩ := legacy_migration ["http://a", "http://b"] none
  exact ⟨h1, h3 "http://b" (by decide), h4⟩

lemma lookup_setEntry_self (l : List (String × Nat)) (k : String) (v : Nat) :
    (setEntry l k v).lookup k = some v := by
  induction l with
  | nil => simp [setEntry, List.lookup]
  | cons p t ih =>
    obtain ⟨k', v'⟩ := p
    by_cases h : k' = k
    · subst h
      simp [setEntry, List.lookup]
    · have hbeq : (k == k') = false := by
        simp [beq_iff_eq]
        exact fun hk => h hk.symm
      simp [setEntry, h, List.lookup, hbeq, ih]

lemma lookup_eq_none_of_not_mem_keys (l : List (String × Nat)) (k : String)
    (h : k ∉ l.map Prod.fst) : l.lookup k = none := by
  induction l with
  | nil => rfl
  | cons p t ih =>
    obtain ⟨k', v'⟩ := p
    simp only [List.map, List.mem_cons] at h
    push_neg at h
    have hbeq : (k == k') = false := by
      simp [beq_iff_eq]
      exact h.1
    simp only [List.lookup, hbeq]
    exact ih h.2

lemma lookup_removeEntry_self (l : List (String × Nat)) (k : String)
    (h : (l.map Prod.fst).Nodup) : (removeEntry l k).lookup k = none := by
  induction l with
  | nil => rfl
  | cons p t ih =>
    obtain ⟨k', v'⟩ := p
    simp only [List.map, List.nodup_cons] at h
    by_cases hk : k' = k
    · subst hk
      simp only [removeEntry, if_pos rfl]
      exact lookup_eq_none_of_not_mem_keys t k' h.1
    · have hbeq : (k == k') = false := by
        simp [beq_iff_eq]
        exact fun hkk => hk hkk.symm
      simp only [removeEntry, if_neg hk, List.lookup, hbeq]
      exact ih h.2

/-- Claim C3: while the session still exists, `_check_single_session`
never changes the monitored set (in particular a session is never removed
for exceeding the retry limit); once the per-session failure counter has
reached `retry_count`, the next check resets it to 0; a successful live
detection deletes the counter; a resolution failure (no live stream, or an
exception) below the limit increments it. -/
theorem autorecord_retry_reset (retryCount : Nat) (st : AutoRecordState)
    (sid : String) :
    (∀ isRecording outcome,
      (check_single_session retryCount st sid true isRecording outcome).monitored
        = st.monitored) ∧
    (∀ n outcome, st.failed.lookup sid = some n → retryCount ≤ n →
      (check_single_session retryCount st sid true false outcome).failed.lookup sid
        = some 0) ∧
    ((st.failed.map Prod.fst).Nodup →
      (∀ n, st.failed.lookup sid = some n → n < retryCount) →
      ∀ u, u ≠ "" →
        (check_single_session retryCount st sid true false
            (some (some u, "Live"))).failed.lookup sid = none) ∧
    ((∀ n, st.failed.lookup sid = some n → n < retryCount) →
      (check_single_session retryCount st sid true false none).failed.lookup sid
        = some ((st.failed.lookup sid).getD 0 + 1) ∧
      ∀ resolved status, ¬ (status = "Live" ∧ resolved ≠ none ∧ resolved ≠ some "") →
        (check_single_session retryCount st sid true false
            (some (resolved, status))).failed.lookup sid
          = some ((st.failed.lookup sid).getD 0 + 1)) := by
  have hunder : (∀ n, st.failed.lookup sid = some n → n < retryCount) →
      (match st.failed.lookup sid with
       | some n => decide (retryCount ≤ n)
       | none => false) = false := by
    intro hlt
    rcases hl : st.failed.lookup sid with _ | n
    · rfl
    · simp only [decide_eq_false_iff_not, not_le]
      exact hlt n hl
  refine ⟨?_, ?_, ?_, ?_⟩
  · intro isRecording outcome
    rcases outcome with _ | ⟨resolved, status⟩ <;>
      simp [check_single_session, apply_ite AutoRecordState.monitored]
  · intro n outcome hl hge
    simp [check_single_session, hl, hge, lookup_setEntry_self]
  · intro hnodup hlt u hu
    simp [check_single_session, hunder hlt, hu,
      lookup_removeEntry_self st.failed sid hnodup]
  · intro hlt
    constructor
    · simp [check_single_session, hunder hlt, lookup_setEntry_self]
    · intro resolved status hns
      simp only [check_single_session, hunder hlt]
      rw [if_neg (by simp), if_neg (by simp), if_neg (by simp [hunder hlt])]
      simp only [if_neg hns]
      exact lookup_setEntry_self st.failed sid _

/-- Witness for C3: a counter at the limit (3 = default `retry_count`) is
reset to 0 and the session stays monitored; a live detection clears it. -/
theorem autorecord_retry_reset_witness :
    (check_single_session 3 ⟨["s1"], [("s1", 3)]⟩ "s1" true false none).failed.lookup "s1"
      = some 0 ∧
    (check_single_session 3 ⟨["s1"], [("s1", 3)]⟩ "s1" true false none).monitored
      = ["s1"] ∧
    (check_single_session 3 ⟨["s1"], [("s1", 2)]⟩ "s1" true false
        (some (some "http://x/a.m3u8", "Live"))).failed.lookup "s1" = none := by
  obtain ⟨ha, hb, hc, _⟩ := autorecord_retry_reset 3 ⟨["s1"], [("s1", 3)]⟩ "s1"
  refine ⟨hb 3 none (by decide) (by decide), ha false none, ?_⟩
  obtain ⟨_, _, hc', _⟩ := autorecord_retry_reset 3 ⟨["s1"], [("s1", 2)]⟩ "s1"
  refine hc' (by decide) ?_ "http://x/a.m3u8" (by decide)
  intro n hn
  simp [List.lookup] at hn
  omega

lemma af_not_mem_inputArgs (u : String) (hs : List (String × String))
    (hh : renderHeaders hs ≠ "-af") : "-af" ∉ inputArgs u hs := by
  unfold inputArgs
  split
  · intro hm
    rcases List.mem_append.mp hm with h1 | h2
    · exact absurd h1 (by decide)
    · split at h2
      · rcases List.mem_cons.mp h2 with h | h
        · exact absurd h (by decide)
        · rcases List.mem_singleton.mp h with h
          exact hh h.symm
      · exact absurd h2 (List.not_mem_nil _)
  · exact List.not_mem_nil _

/-- Claim C10: in the `spawn_record_process` command line, an absent audio
volume or one within 0.001 of 1.0 keeps audio stream copy (the command has
the adjacent pair `-c:a copy` and no `-af` at all); only a volume
differing from 1.0 by more than 0.001 re-encodes audio (`-c:a aac`) and
adds an `-af volume=...` filter whose value is clamped below at 0.
The hypotheses exclude the degenerate inputs in which the caller passes
the literal string `-af` as the URL, the output path, the duration or a
rendered header block, or smuggles extra raw arguments. -/
theorem spawn_record_volume_handling
    (stream_url output_path : String) (duration : Option String)
    (audio_volume : Option ℚ) (input_headers : List (String × String))
    (hurl : stream_url ≠ "-af") (hout : output_path ≠ "-af")
    (hdur : ∀ d, duration = some d → d ≠ "-af")
    (hh : renderHeaders input_headers ≠ "-af") :
    ((audio_volume = none ∨ ∃ x, audio_volume = some x ∧ |x - 1| ≤ 1/1000) →
      "-af" ∉ spawn_record_cmd stream_url output_path duration [] audio_volume input_headers ∧
      containsSeq ["-c:a", "copy"]
        (spawn_record_cmd stream_url output_path duration [] audio_volume input_headers)) ∧
    (∀ x, audio_volume = some x → 1/1000 < |x - 1| →
      containsSeq ["-af", "volume=" ++ toString (max 0 x)]
        (spawn_record_cmd stream_url output_path duration [] audio_volume input_headers) ∧
      containsSeq ["-c:a", "aac", "-b:a", "192k"]
        (spawn_record_cmd stream_url output_path duration [] audio_volume input_headers)) := by
  constructor
  · intro hnear
    have hvd : volumeDiffers audio_volume = false := by
      rcases hnear with h | ⟨x, hx, hle⟩
      · rw [h]; rfl
      · rw [hx]
        unfold volumeDiffers
        simp only [decide_eq_false_iff_not, not_lt]
        exact hle
    have haux : ∀ (l1 l2 : List String), "-af" ∉ l1 → "-af" ∉ l2 → "-af" ∉ l1 ++ l2 :=
      fun _ _ h1 h2 hm => (List.mem_append.mp hm).elim h1 h2
    constructor
    · unfold spawn_record_cmd
      refine haux _ _ ?_ ?_
      · refine haux _ _ ?_ ?_
        · refine haux _ _ ?_ ?_
          · refine haux _ _ ?_ ?_
            · refine haux _ _ ?_ ?_
              · refine haux _ _ ?_ ?_
                · refine haux _ _ ?_ ?_
                  · refine haux _ _ ?_ ?_
                    · refine haux _ _ ?_ ?_
                      · refine haux _ _ ?_ ?_
                        · decide
                        · exact af_not_mem_inputArgs stream_url input_headers hh
                      · intro hm
                        rcases List.mem_cons.mp hm with h | h
                        · exact absurd h (by decide)
                        · exact hurl (List.mem_singleton.mp h).symm
                    · split
                      · decide
                      · exact List.not_mem_nil _
                  · rcases duration with _ | d
                    · exact List.not_mem_nil _
                    · change "-af" ∉ (if d ≠ "" then ["-t", d] else [])
                      by_cases hd0 : d = ""
                      · rw [if_neg (by simp [hd0])]
                        exact List.not_mem_nil _
                      · rw [if_pos hd0]
                        intro hm
                        rcases List.mem_cons.mp hm with h | h
                        · exact absurd h (by decide)
                        · exact hdur d rfl (List.mem_singleton.mp h).symm
                · exact List.not_mem_nil _
              · unfold volumeFilterArgs
                rw [hvd]
                exact List.not_mem_nil _
            · decide
          · unfold audioCodecArgs
            rw [hvd]
            decide
        · split
          · decide
          · decide
      · intro hm
        exact hout (List.mem_singleton.mp hm).symm
    · unfold spawn_record_cmd
      have hcodec : audioCodecArgs audio_volume = ["-c:a", "copy"] := by
        unfold audioCodecArgs
        rw [hvd]
        rfl
      rw [hcodec]
      refine containsSeq_append_right _ ?_
      refine containsSeq_append_right _ ?_
      refine containsSeq_append_left _ ?_
      exact containsSeq_self _
  · intro x hx hgt
    have hvd : volumeDiffers audio_volume = true := by
      rw [hx]
      unfold volumeDiffers
      simp only [decide_eq_true_eq]
      exact hgt
    have hfilter : volumeFilterArgs audio_volume
        = ["-af", "volume=" ++ toString (max 0 x)] := by
      unfold volumeFilterArgs
      rw [hvd, hx]
      simp
    have hcodec : audioCodecArgs audio_volume = ["-c:a", "aac", "-b:a", "192k"] := by
      unfold audioCodecArgs
      rw [hvd]
      rfl
    constructor
    · unfold spawn_record_cmd
      rw [hfilter]
      refine containsSeq_append_right _ ?_
      refine containsSeq_append_right _ ?_
      refine containsSeq_append_right _ ?_
      refine containsSeq_append_right _ ?_
      refine containsSeq_append_left _ ?_
      exact containsSeq_self _
    · unfold spawn_record_cmd
      rw [hcodec]
      refine containsSeq_append_right _ ?_
      refine containsSeq_append_right _ ?_
      refine containsSeq_append_left _ ?_
      exact containsSeq_self _

/-- Witness for C10: volume 1 keeps `-c:a copy`; volume 1/2 re-encodes
with a `volume=1/2` filter. -/
theorem spawn_record_volume_handling_witness :
    ("-af" ∉ spawn_record_cmd "http://x/a.m3u8" "out.mp4" none [] (some 1) [] ∧
      containsSeq ["-c:a", "copy"]
        (spawn_record_cmd "http://x/a.m3u8" "out.mp4" none [] (some 1) [])) ∧
    (containsSeq ["-af", "volume=" ++ toString (max 0 (1/2 : ℚ))]
        (spawn_record_cmd "http://x/a.m3u8" "out.mp4" none [] (some (1/2)) []) ∧
      containsSeq ["-c:a", "aac", "-b:a", "192k"]
        (spawn_record_cmd "http://x/a.m3u8" "out.mp4" none [] (some (1/2)) [])) := by
  constructor
  · exact (spawn_record_volume_handling "http://x/a.m3u8" "out.mp4" none (some 1) []
      (by decide) (by decide) (by intro d hd; cases hd) (by decide)).1
      (Or.inr ⟨1, rfl, by norm_num⟩)
  · refine (spawn_record_volume_handling "http://x/a.m3u8" "out.mp4" none (some (1/2)) []
      (by decide) (by decide) (by intro d hd; cases hd) (by decide)).2
      (1/2) rfl ?_
    rw [abs_sub_comm, show (1 : ℚ) - 1/2 = 1/2 by norm_num,
      abs_of_pos (by norm_num : (0 : ℚ) < 1/2)]
    norm_num

lemma inv_resolvePhase {s : Session} (r : ResolveOutcome)
    (h0 : s.rec_proc = none) (hi : sessionInv s) : sessionInv (resolvePhase s r) := by
  rcases r with _ | ⟨url, p⟩ | url
  · exact hi
  · simp [resolvePhase, toRecording, sessionInv]
  · simp [resolvePhase, sessionInv, h0]

/-- Claim C1, amended: `start_record` (entered with no live handle),
`stop_record` and the poll-on-exit handler all preserve the equivalence
"`rec_proc` non-null ⟺ status Recording"; the stream-monitor restart does
not — its immediate step clears `rec_proc` while leaving `status`
untouched, so a session sits at `status = "Recording"` with no process
handle until the delayed restart fires. -/
theorem rec_proc_status_invariant_ops :
    (∀ s c r, s.rec_proc = none → sessionInv s → sessionInv (start_record s c r)) ∧
    (∀ s stdinPresent writeOk, sessionInv s →
      sessionInv (stop_record s stdinPresent writeOk).1) ∧
    (∀ s ret, sessionInv s → sessionInv (wait_record_end_poll s ret)) ∧
    (∀ s p, s.rec_proc = some p →
      (restart_in_ui_thread s).rec_proc = none ∧
      (restart_in_ui_thread s).status = s.status) := by
  refine ⟨?_, ?_, ?_, ?_⟩
  · intro s c r h0 hi
    unfold start_record
    rcases hres : s.resolved_url with _ | u
    · exact inv_resolvePhase r h0 hi
    · change sessionInv (if u = "" then resolvePhase s r else
        match c with
        | CachedOutcome.spawnOk p => toRecording s p
        | CachedOutcome.spawnNoPid => resolvePhase s r
        | CachedOutcome.spawnErr => resolvePhase s r)
      by_cases hu : u = ""
      · rw [if_pos hu]
        exact inv_resolvePhase r h0 hi
      · rw [if_neg hu]
        rcases c with p | _ | _
        · simp [toRecording, sessionInv]
        · exact inv_resolvePhase r h0 hi
        · exact inv_resolvePhase r h0 hi
  · intro s stdinPresent writeOk hi
    unfold stop_record
    rcases hr : s.rec_proc with _ | p
    · exact hi
    · have hs : s.status = "Recording" := by
        unfold sessionInv at hi
        rw [hr] at hi
        simpa using hi
      simp [sessionInv, hs]
  · intro s ret hi
    unfold wait_record_end_poll
    rcases hr : s.rec_proc with _ | p
    · exact hi
    · rcases ret with _ | code
      · exact hi
      · simp [sessionInv]
  · intro s p h
    unfold restart_in_ui_thread
    rw [h]
    exact ⟨rfl, rfl⟩

/-- Counterexample to C1 as stated: on a recording session the monitor
restart clears the handle but leaves status `"Recording"`, so the
invariant fails at the quiescent point before the delayed restart. -/
theorem rec_proc_status_invariant_counterexample :
    sessionInv { page_url := "http://x", resolved_url := some "http://x/a.m3u8",
                 rec_proc := some 1, elapsed_seconds := 5,
                 elapsed_running := true, status := "Recording" } ∧
    ¬ sessionInv (restart_in_ui_thread
        { page_url := "http://x", resolved_url := some "http://x/a.m3u8",
          rec_proc := some 1, elapsed_seconds := 5,
          elapsed_running := true, status := "Recording" }) := by
  decide

/-- Witness for the amended C1 at concrete sessions. -/
theorem rec_proc_status_invariant_ops_witness :
    sessionInv (start_record ⟨"http://x", none, none, 0, false, "Idle"⟩ .spawnErr
      (.okSpawnOk "http://x/a.m3u8" 2)) ∧
    sessionInv (stop_record ⟨"http://x", none, some 1, 0, true, "Recording"⟩ true true).1 ∧
    sessionInv (wait_record_end_poll ⟨"http://x", none, some 1, 0, true, "Recording"⟩ (some 0)) ∧
    (restart_in_ui_thread ⟨"http://x", none, some 1, 0, true, "Recording"⟩).rec_proc = none := by
  obtain ⟨h1, h2, h3, h4⟩ := rec_proc_status_invariant_ops
  exact ⟨h1 ⟨"http://x", none, none, 0, false, "Idle"⟩ .spawnErr
          (.okSpawnOk "http://x/a.m3u8" 2) rfl (by decide),
        h2 ⟨"http://x", none, some 1, 0, true, "Recording"⟩ true true (by decide),
        h3 ⟨"http://x", none, some 1, 0, true, "Recording"⟩ (some 0) (by decide),
        (h4 ⟨"http://x", none, some 1, 0, true, "Recording"⟩ 1 rfl).1⟩

/-- Claim C2, amended: on a recording session, `stop_record` sends the
graceful quit command (or terminates the process when the write fails) and
stops elapsed-time tracking, but leaves the process handle and status
unchanged; the handle is cleared and the status set to Idle by
`wait_record_end_session`'s poll once the process has exited. -/
theorem stop_record_signals_and_poll_cleans
    (s : Session) (p : Nat) (writeOk : Bool) (r : Int)
    (h : s.rec_proc = some p) :
    (stop_record s true writeOk).2
      = (if writeOk then StopSignal.graceful else StopSignal.terminated) ∧
    (stop_record s true writeOk).1.elapsed_running = false ∧
    (stop_record s true writeOk).1.rec_proc = s.rec_proc ∧
    (stop_record s true writeOk).1.status = s.status ∧
    (wait_record_end_poll (stop_record s true writeOk).1 (some r)).rec_proc = none ∧
    (wait_record_end_poll (stop_record s true writeOk).1 (some r)).status = "Idle" ∧
    (wait_record_end_poll (stop_record s true writeOk).1 (some r)).elapsed_running
      = false := by
  have hstop : stop_record s true writeOk
      = ({ s with elapsed_running := false },
         if writeOk then StopSignal.graceful else StopSignal.terminated) := by
    unfold stop_record
    rw [h]
    rfl
  have hpoll : wait_record_end_poll { s with elapsed_running := false } (some r)
      = { s with elapsed_running := false, rec_proc := none, status := "Idle" } := by
    unfold wait_record_end_poll
    rw [show ({ s with elapsed_running := false } : Session).rec_proc = some p from h]
  refine ⟨?_, ?_, ?_, ?_, ?_, ?_, ?_⟩ <;> simp [hstop, hpoll]

/-- Counterexample to C2 as stated: immediately after `stop_record`
returns, the handle is still set and the status is still `"Recording"` —
stop itself clears neither. -/
theorem stop_record_clears_counterexample :
    (stop_record ⟨"http://x", some "http://x/a.m3u8", some 1, 5, true, "Recording"⟩
        true true).1.rec_proc ≠ none ∧
    (stop_record ⟨"http://x", some "http://x/a.m3u8", some 1, 5, true, "Recording"⟩
        true true).1.status ≠ "Idle" := by
  decide

/-- Witness for the amended C2 at a concrete recording session. -/
theorem stop_record_signals_and_poll_cleans_witness :
    (stop_record ⟨"http://x", none, some 1, 0, true, "Recording"⟩ true true).2
      = StopSignal.graceful ∧
    (wait_record_end_poll
        (stop_record ⟨"http://x", none, some 1, 0, true, "Recording"⟩ true true).1
        (some 0)).status = "Idle" := by
  obtain ⟨h1, _, _, _, _, h6, _⟩ := stop_record_signals_and_poll_cleans
    ⟨"http://x", none, some 1, 0, true, "Recording"⟩ 1 true 0 rfl
  exact ⟨h1, h6⟩

end Webcorder
